import Mathlib

/-!
Verification of the amortization engine of `src/app.py` (`calculate_mortgage`,
lines 41-138).  Python `Decimal` values are modelled as exact rationals: the
source sets a 28-significant-digit working context (`getcontext().prec = 28`)
for its intermediate arithmetic, which we model as exact arithmetic, while
every point where the source quantizes to two decimals with `ROUND_HALF_UP`
is modelled by an explicit rounding function `quantCent`.
-/

namespace CredCalc

/-- Round a rational to an integer, ties away from zero: the effect of
`Decimal.quantize(Decimal("1"), rounding=ROUND_HALF_UP)`. -/
def roundHalfUpZ (x : ℚ) : ℤ :=
  if 0 ≤ x then ⌊x + 1 / 2⌋ else -⌊-x + 1 / 2⌋

/-- `x.quantize(Decimal("0.01"), rounding=ROUND_HALF_UP)`: round to a whole
number of cents, ties away from zero. -/
def quantCent (x : ℚ) : ℚ :=
  (roundHalfUpZ (100 * x) : ℚ) / 100

/-- `x` is an exact multiple of `0.01` (a whole number of cents). -/
def CentMul (x : ℚ) : Prop := ∃ k : ℤ, x = (k : ℚ) / 100

/-- One row of the payment schedule (the dict appended in the source loops:
`month`, `payment`, `interest`, `principal`, `balance`). -/
structure ScheduleRow where
  month : ℕ
  payment : ℚ
  interest : ℚ
  principal : ℚ
  balance : ℚ
  deriving DecidableEq

/-- The frozen summary dataclass `MortgageResult` of the source. -/
structure MortgageResult where
  monthly_payment_rub : ℚ
  overpayment_rub : ℚ
  overpayment_percent : ℚ
  total_paid_rub : ℚ
  deriving DecidableEq

/-- One iteration of the zero-rate schedule loop (src/app.py lines 85-104):
month index `i`, incoming balance `b`; returns the appended row together with
the updated balance.  `n` is the last month index, `monthly` the rounded
monthly payment. -/
def zeroRow (monthly : ℚ) (n : ℕ) (b : ℚ) (i : ℕ) : ScheduleRow × ℚ :=
  let pp := if i = n then b else monthly
  let payment := if i = n then b else monthly
  let b1 := quantCent (b - pp)
  let b2 := if b1 < 0 then 0 else b1
  (⟨i, payment, 0, pp, b2⟩, b2)

/-- One iteration of the interest-bearing schedule loop (src/app.py lines
107-128). -/
def ratedRow (monthly r : ℚ) (n : ℕ) (b : ℚ) (i : ℕ) : ScheduleRow × ℚ :=
  let interest := quantCent (b * r)
  let pp := if i = n then b else quantCent (monthly - interest)
  let payment := if i = n then quantCent (interest + b) else monthly
  let b1 := quantCent (b - pp)
  let b2 := if b1 < 0 then 0 else b1
  (⟨i, payment, interest, pp, b2⟩, b2)

/-- The schedule loop: `k` remaining iterations, balance `b`, current month
index `i`. -/
def buildSchedule (step : ℚ → ℕ → ScheduleRow × ℚ) : ℕ → ℚ → ℕ → List ScheduleRow
  | 0, _, _ => []
  | k + 1, b, i => ((step b i).1) :: buildSchedule step k ((step b i).2) (i + 1)

/-- The running balance after `j` iterations of the schedule loop started at
month index `i` with balance `b`. -/
def stepBal (step : ℚ → ℕ → ScheduleRow × ℚ) (b : ℚ) (i : ℕ) : ℕ → ℚ
  | 0 => b
  | j + 1 => (step (stepBal step b i j) (i + j)).2

/-- Summary and schedule of the zero-rate path (src/app.py lines 65-67 and
84-104), for principal `P` over `n` months. -/
def zeroCore (P : ℚ) (n : ℕ) : MortgageResult × List ScheduleRow :=
  let monthly := quantCent (P / (n : ℚ))
  let total := monthly * (n : ℚ)
  let over := quantCent (total - P)
  let pct := quantCent (over / P * 100)
  (⟨monthly, over, pct, total⟩, buildSchedule (zeroRow monthly n) n P 1)

/-- Summary and schedule of the interest-bearing path (src/app.py lines
68-78 and 105-128). -/
def ratedCore (P : ℚ) (n : ℕ) (rate : ℚ) : MortgageResult × List ScheduleRow :=
  let r := rate / 100 / 12
  let q := (1 + r) ^ n
  let monthly := quantCent (P * (r * q) / (q - 1))
  let total := quantCent (monthly * (n : ℚ))
  let over := quantCent (total - P)
  let pct := quantCent (over / P * 100)
  (⟨monthly, over, pct, total⟩, buildSchedule (ratedRow monthly r n) n P 1)

/-- Post-validation computation: the source branches on
`annual_rate_percent == 0`. -/
def computeCore (P : ℚ) (n : ℕ) (rate : ℚ) : MortgageResult × List ScheduleRow :=
  if rate = 0 then zeroCore P n else ratedCore P n rate

/-- `calculate_mortgage` (src/app.py lines 41-138).  A Python `ValueError`
with its message becomes `Except.error`; the validation checks appear in
source order, with the month-integrality check (`months != months.to_integral_value()`)
performed after the others, exactly as in the source. -/
def calculate_mortgage (home_price down_payment years annual_rate_percent : ℚ) :
    Except String (MortgageResult × List ScheduleRow) :=
  if home_price ≤ 0 then Except.error "Стоимость жилья должна быть больше 0"
  else if down_payment < 0 then Except.error "Первоначальный взнос не может быть отрицательным"
  else if home_price ≤ down_payment then
    Except.error "Первоначальный взнос должен быть меньше стоимости жилья"
  else if years ≤ 0 then Except.error "Срок кредита должен быть больше 0"
  else if annual_rate_percent < 0 then Except.error "Ставка не может быть отрицательной"
  else if (years * 12).den = 1 then
    Except.ok (computeCore (home_price - down_payment) (years * 12).num.toNat annual_rate_percent)
  else Except.error "Срок кредита должен быть целым числом лет (например, 15)"

/-- `true` iff the computation succeeded (no `ValueError`). -/
def exceptOk {α : Type} (e : Except String α) : Bool :=
  match e with
  | Except.ok _ => true
  | Except.error _ => false

/-- The schedule of a successful computation (`[]` on a validation error). -/
def scheduleOf (e : Except String (MortgageResult × List ScheduleRow)) : List ScheduleRow :=
  match e with
  | Except.ok v => v.2
  | Except.error _ => []

/-- The summary of a successful computation (zeros on a validation error). -/
def summaryOf (e : Except String (MortgageResult × List ScheduleRow)) : MortgageResult :=
  match e with
  | Except.ok v => v.1
  | Except.error _ => ⟨0, 0, 0, 0⟩

/-- `nonIncreasingFrom a l`: every element of `l` is bounded by its
predecessor, the first one by `a`. -/
def nonIncreasingFrom : ℚ → List ℚ → Prop
  | _, [] => True
  | a, x :: l => x ≤ a ∧ nonIncreasingFrom x l

instance nonIncreasingFromDec : (a : ℚ) → (l : List ℚ) → Decidable (nonIncreasingFrom a l)
  | _, [] => Decidable.isTrue trivial
  | _, x :: l => @instDecidableAnd _ _ inferInstance (nonIncreasingFromDec x l)

/-- The balance held by the schedule loop before it computes row `j`
(0-based): the principal for `j = 0`, otherwise the balance recorded in the
previous row. -/
def prevBalance (P : ℚ) (l : List ScheduleRow) (j : ℕ) : ℚ :=
  if j = 0 then P else (l.getD (j - 1) ⟨0, 0, 0, 0, 0⟩).balance

/-! ### Arithmetic facts about `quantCent` -/

attribute [local semireducible] Rat.add Rat.sub Rat.mul Rat.inv Nat.gcd

set_option maxRecDepth 4000

lemma roundHalfUpZ_intCast (k : ℤ) : roundHalfUpZ (k : ℚ) = k := by
  unfold roundHalfUpZ
  have hhalf : ⌊(1 : ℚ) / 2⌋ = 0 := by
    apply Int.floor_eq_zero_iff.mpr
    constructor <;> norm_num
  split_ifs with h
  · rw [Int.floor_int_add, hhalf, add_zero]
  · push_neg at h
    have : -(k : ℚ) = ((-k : ℤ) : ℚ) := by push_cast; ring
    rw [this, Int.floor_int_add, hhalf, add_zero, neg_neg]

lemma quantCent_centMul (x : ℚ) : CentMul (quantCent x) :=
  ⟨roundHalfUpZ (100 * x), rfl⟩

lemma quantCent_of_centMul {x : ℚ} (h : CentMul x) : quantCent x = x := by
  obtain ⟨k, rfl⟩ := h
  unfold quantCent
  have h100 : (100 : ℚ) * ((k : ℚ) / 100) = (k : ℚ) := by field_simp
  rw [h100, roundHalfUpZ_intCast]

lemma roundHalfUpZ_mono {x y : ℚ} (h : x ≤ y) : roundHalfUpZ x ≤ roundHalfUpZ y := by
  unfold roundHalfUpZ
  split_ifs with hx hy
  · exact Int.floor_le_floor (by linarith)
  · exact absurd (le_trans hx h) hy
  · have h1 : 0 ≤ ⌊y + 1 / 2⌋ := Int.floor_nonneg.mpr (by linarith)
    have h2 : 0 ≤ ⌊-x + 1 / 2⌋ := by
      push_neg at hx
      exact Int.floor_nonneg.mpr (by linarith)
    omega
  · have := Int.floor_le_floor (α := ℚ) (show -y + 1 / 2 ≤ -x + 1 / 2 by linarith)
    omega

lemma quantCent_mono {x y : ℚ} (h : x ≤ y) : quantCent x ≤ quantCent y := by
  unfold quantCent
  apply div_le_div_of_nonneg_right ?_ (by norm_num)
  exact_mod_cast roundHalfUpZ_mono (by linarith)

lemma quantCent_zero : quantCent 0 = 0 :=
  quantCent_of_centMul ⟨0, by norm_num⟩

lemma quantCent_nonneg {x : ℚ} (h : 0 ≤ x) : 0 ≤ quantCent x := by
  rw [← quantCent_zero]
  exact quantCent_mono h

lemma CentMul.sub {x y : ℚ} (hx : CentMul x) (hy : CentMul y) : CentMul (x - y) := by
  obtain ⟨a, rfl⟩ := hx
  obtain ⟨b, rfl⟩ := hy
  exact ⟨a - b, by push_cast; ring⟩

lemma CentMul.natMul {x : ℚ} (hx : CentMul x) (n : ℕ) : CentMul (x * (n : ℚ)) := by
  obtain ⟨a, rfl⟩ := hx
  exact ⟨a * n, by push_cast; ring⟩

lemma CentMul.zero : CentMul 0 := ⟨0, by norm_num⟩

/-! ### Structure of the schedule loop -/

lemma buildSchedule_length (step : ℚ → ℕ → ScheduleRow × ℚ) (k : ℕ) (b : ℚ) (i : ℕ) :
    (buildSchedule step k b i).length = k := by
  induction k generalizing b i with
  | zero => rfl
  | succ k ih => simp [buildSchedule, ih]

lemma stepBal_shift (step : ℚ → ℕ → ScheduleRow × ℚ) (b : ℚ) (i j : ℕ) :
    stepBal step ((step b i).2) (i + 1) j = stepBal step b i (j + 1) := by
  induction j with
  | zero => rfl
  | succ j ih =>
      show (step (stepBal step ((step b i).2) (i + 1) j) ((i + 1) + j)).2 = _
      rw [ih]
      show _ = (step (stepBal step b i (j + 1)) (i + (j + 1))).2
      rw [show (i + 1) + j = i + (j + 1) by omega]

lemma buildSchedule_getElem (step : ℚ → ℕ → ScheduleRow × ℚ) (k : ℕ) :
    ∀ (b : ℚ) (i j : ℕ), j < k →
      (buildSchedule step k b i)[j]? = some ((step (stepBal step b i j) (i + j)).1) := by
  induction k with
  | zero => intro b i j hj; omega
  | succ k ih =>
      intro b i j hj
      match j with
      | 0 => simp [buildSchedule, stepBal]
      | j + 1 =>
          have hcons : buildSchedule step (k + 1) b i =
              ((step b i).1) :: buildSchedule step k ((step b i).2) (i + 1) := rfl
          rw [hcons, List.getElem?_cons_succ, ih ((step b i).2) (i + 1) j (by omega),
            stepBal_shift]
          rw [show (i + 1) + j = i + (j + 1) by omega]

lemma buildSchedule_get (step : ℚ → ℕ → ScheduleRow × ℚ) (k : ℕ) (b : ℚ) (i j : ℕ)
    (hj : j < k) (hlen : j < (buildSchedule step k b i).length) :
    (buildSchedule step k b i).get ⟨j, hlen⟩ = (step (stepBal step b i j) (i + j)).1 := by
  have h1 := buildSchedule_getElem step k b i j hj
  rw [List.getElem?_eq_getElem hlen] at h1
  simpa using h1

lemma buildSchedule_map_month (step : ℚ → ℕ → ScheduleRow × ℚ)
    (hm : ∀ b i, ((step b i).1).month = i) (k : ℕ) :
    ∀ (b : ℚ) (i : ℕ), (buildSchedule step k b i).map ScheduleRow.month = List.range' i k := by
  induction k with
  | zero => intro b i; rfl
  | succ k ih =>
      intro b i
      simp [buildSchedule, List.range'_succ, hm, ih]

lemma nonIncreasingFrom_buildSchedule (step : ℚ → ℕ → ScheduleRow × ℚ) (Inv : ℚ → Prop)
    (hstep : ∀ b i, Inv b →
      ((step b i).1).balance = (step b i).2 ∧ (step b i).2 ≤ b ∧ Inv ((step b i).2)) (k : ℕ) :
    ∀ (b : ℚ) (i : ℕ), Inv b →
      nonIncreasingFrom b ((buildSchedule step k b i).map ScheduleRow.balance) := by
  induction k with
  | zero => intro b i _; trivial
  | succ k ih =>
      intro b i hb
      obtain ⟨hbal, hle, hinv⟩ := hstep b i hb
      refine ⟨?_, ?_⟩
      · rw [hbal]; exact hle
      · rw [hbal]; exact ih ((step b i).2) (i + 1) hinv

/-! ### Validation -/

lemma calc_ok_elim {hp dp y r : ℚ} {v : MortgageResult × List ScheduleRow}
    (h : calculate_mortgage hp dp y r = Except.ok v) :
    0 < hp ∧ 0 ≤ dp ∧ dp < hp ∧ 0 < y ∧ 0 ≤ r ∧ (y * 12).den = 1 ∧
      v = computeCore (hp - dp) (y * 12).num.toNat r := by
  unfold calculate_mortgage at h
  split_ifs at h with h1 h2 h3 h4 h5 h6 <;> try exact Except.noConfusion h
  push_neg at h1 h2 h3 h4 h5
  injection h with h7
  exact ⟨h1, h2, h3, h4, h5, h6, h7.symm⟩

lemma monthCount_facts {y : ℚ} (hy : 0 < y) (hden : (y * 12).den = 1) :
    0 < (y * 12).num.toNat ∧ (((y * 12).num.toNat : ℚ)) = y * 12 := by
  have h12 : 0 < y * 12 := by positivity
  have hnum : 0 < (y * 12).num := Rat.num_pos.mpr h12
  refine ⟨by omega, ?_⟩
  have h1 : ((y * 12).num : ℚ) = y * 12 := by
    conv_rhs => rw [← Rat.num_div_den (y * 12)]
    rw [hden]
    norm_num
  have h2 : (((y * 12).num.toNat : ℤ) : ℚ) = ((y * 12).num : ℚ) := by
    rw [Int.toNat_of_nonneg hnum.le]
  push_cast at h2
  rw [h2, h1]

/-- C6: `calculate_mortgage` raises a `ValidationError` carrying a reason
string exactly when `home_price ≤ 0`, `down_payment < 0`,
`down_payment ≥ home_price`, `term_years ≤ 0`, `term_years * 12` is not an
integer, or `annual_rate_percent < 0`; on every other input it returns a
complete `(summary, schedule)` pair. -/
theorem calculate_mortgage_error_iff (hp dp y r : ℚ) :
    ((∃ e, calculate_mortgage hp dp y r = Except.error e) ↔
      (hp ≤ 0 ∨ dp < 0 ∨ hp ≤ dp ∨ y ≤ 0 ∨ (y * 12).den ≠ 1 ∨ r < 0)) ∧
    (¬ (hp ≤ 0 ∨ dp < 0 ∨ hp ≤ dp ∨ y ≤ 0 ∨ (y * 12).den ≠ 1 ∨ r < 0) →
      ∃ res sched, calculate_mortgage hp dp y r = Except.ok (res, sched)) := by
  unfold calculate_mortgage
  split_ifs with h1 h2 h3 h4 h5 h6 <;> simp_all <;> tauto

/-- C6 witness: the rejection of `home_price = 0` (other arguments valid),
obtained from `calculate_mortgage_error_iff`. -/
theorem calculate_mortgage_error_iff_witness :
    ∃ e, calculate_mortgage 0 0 10 5 = Except.error e :=
  (calculate_mortgage_error_iff 0 0 10 5).1.mpr (by norm_num)

/-- C7 counterexample: `term_years = 2.5` is NOT rejected — `2.5 * 12 = 30`
is an integer month count, so the computation succeeds (the claim says this
input raises a ValidationError). -/
theorem term_two_and_a_half_accepted :
    exceptOk (calculate_mortgage 1000000 200000 (5 / 2) 5) = true := by decide

/-- C7 (amended): `home_price = 0`, `down_payment = home_price`, a term with
a non-integer month count such as `term_years = 2.7`, and
`annual_rate_percent = -1` are each rejected with a `ValidationError`, while
`term_years = 2.5` (an exact 30 months) is accepted. -/
theorem validation_concrete_rejections :
    calculate_mortgage 0 0 10 5 = Except.error "Стоимость жилья должна быть больше 0" ∧
    calculate_mortgage 1000000 1000000 10 5 =
      Except.error "Первоначальный взнос должен быть меньше стоимости жилья" ∧
    exceptOk (calculate_mortgage 1000000 200000 (5 / 2) 5) = true ∧
    calculate_mortgage 1000000 200000 (27 / 10) 5 =
      Except.error "Срок кредита должен быть целым числом лет (например, 15)" ∧
    calculate_mortgage 1000000 200000 10 (-1) =
      Except.error "Ставка не может быть отрицательной" :=
  ⟨rfl, rfl, rfl, rfl, rfl⟩

lemma exceptOk_elim {hp dp y r : ℚ}
    (h : exceptOk (calculate_mortgage hp dp y r) = true) :
    calculate_mortgage hp dp y r =
      Except.ok (computeCore (hp - dp) (y * 12).num.toNat r) ∧
    0 < hp ∧ 0 ≤ dp ∧ dp < hp ∧ 0 < y ∧ 0 ≤ r ∧ (y * 12).den = 1 := by
  cases hcalc : calculate_mortgage hp dp y r with
  | error e => rw [hcalc] at h; simp [exceptOk] at h
  | ok v =>
      obtain ⟨h1, h2, h3, h4, h5, h6, h7⟩ := calc_ok_elim hcalc
      exact ⟨by rw [h7], h1, h2, h3, h4, h5, h6⟩

lemma zeroRow_month (monthly : ℚ) (n : ℕ) (b : ℚ) (i : ℕ) :
    ((zeroRow monthly n b i).1).month = i := rfl

lemma ratedRow_month (monthly r : ℚ) (n : ℕ) (b : ℚ) (i : ℕ) :
    ((ratedRow monthly r n b i).1).month = i := rfl

lemma zeroRow_balance_out (monthly : ℚ) (n : ℕ) (b : ℚ) (i : ℕ) :
    ((zeroRow monthly n b i).1).balance = (zeroRow monthly n b i).2 := rfl

lemma ratedRow_balance_out (monthly r : ℚ) (n : ℕ) (b : ℚ) (i : ℕ) :
    ((ratedRow monthly r n b i).1).balance = (ratedRow monthly r n b i).2 := rfl

lemma zeroRow_last_balance (monthly : ℚ) (n : ℕ) (b : ℚ) :
    ((zeroRow monthly n b n).1).balance = 0 := by
  simp [zeroRow, sub_self, quantCent_zero]

lemma ratedRow_last_balance (monthly r : ℚ) (n : ℕ) (b : ℚ) :
    ((ratedRow monthly r n b n).1).balance = 0 := by
  simp [ratedRow, sub_self, quantCent_zero]

lemma buildSchedule_getLast_balance (step : ℚ → ℕ → ScheduleRow × ℚ) (n k : ℕ) (b : ℚ)
    (i : ℕ) (hk : 0 < k) (hi : i + k = n + 1)
    (hlast : ∀ b', ((step b' n).1).balance = 0) :
    ((buildSchedule step k b i).getLast?).map ScheduleRow.balance = some 0 := by
  have hlen := buildSchedule_length step k b i
  have hget := buildSchedule_getElem step k b i (k - 1) (by omega)
  rw [List.getLast?_eq_getElem?, hlen, hget, show i + (k - 1) = n by omega]
  simp [hlast]

/-- C1: for every input accepted by validation, the balance of the last
schedule row is exactly 0: in both rate paths the final row sets
`principal_part` to the whole remaining balance. -/
theorem last_schedule_balance_zero (hp dp y r : ℚ)
    (h : exceptOk (calculate_mortgage hp dp y r) = true) :
    ((scheduleOf (calculate_mortgage hp dp y r)).getLast?).map ScheduleRow.balance = some 0 := by
  obtain ⟨hcalc, hhp, hdp, hdphp, hy, hr, hden⟩ := exceptOk_elim h
  obtain ⟨hn, hcast⟩ := monthCount_facts hy hden
  rw [hcalc]
  show (((computeCore (hp - dp) ((y * 12).num.toNat) r).2).getLast?).map _ = some 0
  unfold computeCore
  split_ifs with hr0
  · show ((buildSchedule _ _ _ _).getLast?).map _ = some 0
    exact buildSchedule_getLast_balance _ _ _ _ _ hn (by omega)
      (fun b' => zeroRow_last_balance _ _ b')
  · show ((buildSchedule _ _ _ _).getLast?).map _ = some 0
    exact buildSchedule_getLast_balance _ _ _ _ _ hn (by omega)
      (fun b' => ratedRow_last_balance _ _ _ b')

/-- C1 witness: a concrete accepted input (price 2, down payment 1, one
year, zero rate) whose last schedule row has balance 0. -/
theorem last_schedule_balance_zero_witness :
    exceptOk (calculate_mortgage 2 1 1 0) = true ∧
    ((scheduleOf (calculate_mortgage 2 1 1 0)).getLast?).map ScheduleRow.balance = some 0 :=
  ⟨by decide, last_schedule_balance_zero 2 1 1 0 (by decide)⟩

/-- C8: for every input accepted by validation the schedule has exactly
`term_years * 12` rows, and its `month` fields are `1, 2, …, month_count`
in increasing order. -/
theorem schedule_month_fields (hp dp y r : ℚ)
    (h : exceptOk (calculate_mortgage hp dp y r) = true) :
    (scheduleOf (calculate_mortgage hp dp y r)).map ScheduleRow.month =
      List.range' 1 ((scheduleOf (calculate_mortgage hp dp y r)).length) ∧
    (((scheduleOf (calculate_mortgage hp dp y r)).length : ℚ)) = y * 12 := by
  obtain ⟨hcalc, hhp, hdp, hdphp, hy, hr, hden⟩ := exceptOk_elim h
  obtain ⟨hn, hcast⟩ := monthCount_facts hy hden
  rw [hcalc]
  show ((computeCore _ _ _).2).map ScheduleRow.month =
      List.range' 1 (((computeCore _ _ _).2).length) ∧
    ((((computeCore (hp - dp) ((y * 12).num.toNat) r).2).length : ℚ)) = y * 12
  unfold computeCore
  split_ifs with hr0
  · show (buildSchedule _ _ _ _).map ScheduleRow.month =
        List.range' 1 ((buildSchedule _ _ _ _).length) ∧
      (((buildSchedule _ _ _ _).length : ℚ)) = y * 12
    rw [buildSchedule_length,
      buildSchedule_map_month _ (fun b i => zeroRow_month _ _ b i) _ _ _]
    exact ⟨rfl, hcast⟩
  · show (buildSchedule _ _ _ _).map ScheduleRow.month =
        List.range' 1 ((buildSchedule _ _ _ _).length) ∧
      (((buildSchedule _ _ _ _).length : ℚ)) = y * 12
    rw [buildSchedule_length,
      buildSchedule_map_month _ (fun b i => ratedRow_month _ _ _ b i) _ _ _]
    exact ⟨rfl, hcast⟩

/-- C8 witness: the concrete accepted input (2, 1, 1 year, rate 0) has a
12-row schedule with months 1..12. -/
theorem schedule_month_fields_witness :
    exceptOk (calculate_mortgage 2 1 1 0) = true ∧
    ((scheduleOf (calculate_mortgage 2 1 1 0)).map ScheduleRow.month =
      List.range' 1 ((scheduleOf (calculate_mortgage 2 1 1 0)).length) ∧
    (((scheduleOf (calculate_mortgage 2 1 1 0)).length : ℚ)) = 1 * 12) :=
  ⟨by decide, schedule_month_fields 2 1 1 0 (by decide)⟩

lemma summaryOf_ok (v : MortgageResult × List ScheduleRow) :
    summaryOf (Except.ok v) = v.1 := rfl

lemma scheduleOf_ok (v : MortgageResult × List ScheduleRow) :
    scheduleOf (Except.ok v) = v.2 := rfl

lemma computeCore_zero (P : ℚ) (n : ℕ) : computeCore P n 0 = zeroCore P n := by
  unfold computeCore
  rw [if_pos rfl]

lemma computeCore_rated (P : ℚ) (n : ℕ) {rate : ℚ} (hr : rate ≠ 0) :
    computeCore P n rate = ratedCore P n rate := by
  unfold computeCore
  rw [if_neg hr]

lemma buildSchedule_prevBalance (step : ℚ → ℕ → ScheduleRow × ℚ)
    (hbal : ∀ b i, ((step b i).1).balance = (step b i).2)
    (k : ℕ) (b : ℚ) (j : ℕ) (hj : j < k) :
    prevBalance b (buildSchedule step k b 1) j = stepBal step b 1 j := by
  unfold prevBalance
  by_cases h0 : j = 0
  · subst h0; simp [stepBal]
  · rw [if_neg h0]
    rw [List.getD_eq_getElem?_getD, buildSchedule_getElem step k b 1 (j - 1) (by omega)]
    rw [Option.getD_some, hbal]
    show stepBal step b 1 ((j - 1) + 1) = stepBal step b 1 j
    rw [show (j - 1) + 1 = j by omega]

lemma getElem?_lt_length {l : List ScheduleRow} {j : ℕ} {row : ScheduleRow}
    (h : l[j]? = some row) : j < l.length := by
  by_contra hge
  rw [List.getElem?_eq_none (le_of_not_lt hge)] at h
  exact Option.noConfusion h

/-- C3: in the zero-rate path the monthly payment is the rounded
`principal / month_count`; every row before the last has
`payment = principal_part = monthly_payment`; the last row has
`principal_part = remaining balance` and `payment = principal_part`; and
`interest_part = 0` in every row including the last. -/
theorem zero_rate_rows (hp dp y rate : ℚ)
    (h : exceptOk (calculate_mortgage hp dp y rate) = true) (hr0 : rate = 0) :
    (summaryOf (calculate_mortgage hp dp y rate)).monthly_payment_rub =
      quantCent ((hp - dp) / (((scheduleOf (calculate_mortgage hp dp y rate)).length : ℚ))) ∧
    ∀ j row, (scheduleOf (calculate_mortgage hp dp y rate))[j]? = some row →
      row.interest = 0 ∧
      (j + 1 < (scheduleOf (calculate_mortgage hp dp y rate)).length →
        row.payment = (summaryOf (calculate_mortgage hp dp y rate)).monthly_payment_rub ∧
        row.principal = (summaryOf (calculate_mortgage hp dp y rate)).monthly_payment_rub) ∧
      (j + 1 = (scheduleOf (calculate_mortgage hp dp y rate)).length →
        row.principal = prevBalance (hp - dp) (scheduleOf (calculate_mortgage hp dp y rate)) j ∧
        row.payment = prevBalance (hp - dp) (scheduleOf (calculate_mortgage hp dp y rate)) j) := by
  obtain ⟨hcalc, hhp, hdp, hdphp, hy, hr, hden⟩ := exceptOk_elim h
  obtain ⟨hn, hcast⟩ := monthCount_facts hy hden
  subst hr0
  rw [hcalc]
  simp only [summaryOf_ok, scheduleOf_ok, computeCore_zero, zeroCore]
  constructor
  · rw [buildSchedule_length]
  · intro j row hrow
    have hjn : j < (y * 12).num.toNat := by
      have h2 := getElem?_lt_length hrow
      rwa [buildSchedule_length] at h2
    rw [buildSchedule_getElem _ _ _ _ j hjn] at hrow
    replace hrow := (Option.some.inj hrow).symm
    subst hrow
    refine ⟨rfl, ?_, ?_⟩
    · intro hlt
      have hlt2 : j + 1 < (y * 12).num.toNat := by rwa [buildSchedule_length] at hlt
      have hne : ¬ (1 + j = (y * 12).num.toNat) := by omega
      simp only [zeroRow, if_neg hne]
      exact ⟨trivial, trivial⟩
    · intro hlast
      have hlast2 : j + 1 = (y * 12).num.toNat := by rwa [buildSchedule_length] at hlast
      rw [buildSchedule_prevBalance _ (zeroRow_balance_out _ _) _ _ j hjn]
      have heq : 1 + j = (y * 12).num.toNat := by omega
      simp only [zeroRow, if_pos heq]
      exact ⟨trivial, trivial⟩

/-- C3 witness: the concrete zero-rate input (2, 1, 1 year). -/
theorem zero_rate_rows_witness :
    exceptOk (calculate_mortgage 2 1 1 0) = true ∧ (0 : ℚ) = 0 ∧
    ((summaryOf (calculate_mortgage 2 1 1 0)).monthly_payment_rub =
      quantCent ((2 - 1) / (((scheduleOf (calculate_mortgage 2 1 1 0)).length : ℚ))) ∧
    ∀ j row, (scheduleOf (calculate_mortgage 2 1 1 0))[j]? = some row →
      row.interest = 0 ∧
      (j + 1 < (scheduleOf (calculate_mortgage 2 1 1 0)).length →
        row.payment = (summaryOf (calculate_mortgage 2 1 1 0)).monthly_payment_rub ∧
        row.principal = (summaryOf (calculate_mortgage 2 1 1 0)).monthly_payment_rub) ∧
      (j + 1 = (scheduleOf (calculate_mortgage 2 1 1 0)).length →
        row.principal = prevBalance (2 - 1) (scheduleOf (calculate_mortgage 2 1 1 0)) j ∧
        row.payment = prevBalance (2 - 1) (scheduleOf (calculate_mortgage 2 1 1 0)) j)) :=
  ⟨by decide, rfl, zero_rate_rows 2 1 1 0 (by decide) rfl⟩

/-- C2: in the interest-bearing path every row's `interest_part` is the
rounded `balance * r` (with `r = annual_rate_percent / 100 / 12` and
`balance` the running balance before the payment); rows before the last have
`principal_part = round(monthly_payment - interest_part)`,
`payment = monthly_payment`, and a new balance
`round(balance - principal_part)` clamped to 0 if negative; the last row
instead has `principal_part = remaining balance` and
`payment = round(interest_part + principal_part)`. -/
theorem rated_rows (hp dp y rate : ℚ)
    (h : exceptOk (calculate_mortgage hp dp y rate) = true) (hrpos : 0 < rate) :
    ∀ j row, (scheduleOf (calculate_mortgage hp dp y rate))[j]? = some row →
      row.interest =
        quantCent (prevBalance (hp - dp) (scheduleOf (calculate_mortgage hp dp y rate)) j *
          (rate / 100 / 12)) ∧
      (j + 1 < (scheduleOf (calculate_mortgage hp dp y rate)).length →
        row.principal = quantCent
          ((summaryOf (calculate_mortgage hp dp y rate)).monthly_payment_rub - row.interest) ∧
        row.payment = (summaryOf (calculate_mortgage hp dp y rate)).monthly_payment_rub ∧
        row.balance =
          (if quantCent (prevBalance (hp - dp) (scheduleOf (calculate_mortgage hp dp y rate)) j -
              row.principal) < 0 then 0
           else quantCent (prevBalance (hp - dp) (scheduleOf (calculate_mortgage hp dp y rate)) j -
              row.principal))) ∧
      (j + 1 = (scheduleOf (calculate_mortgage hp dp y rate)).length →
        row.principal = prevBalance (hp - dp) (scheduleOf (calculate_mortgage hp dp y rate)) j ∧
        row.payment = quantCent (row.interest +
          prevBalance (hp - dp) (scheduleOf (calculate_mortgage hp dp y rate)) j)) := by
  obtain ⟨hcalc, hhp, hdp, hdphp, hy, hr, hden⟩ := exceptOk_elim h
  obtain ⟨hn, hcast⟩ := monthCount_facts hy hden
  have hrne : rate ≠ 0 := ne_of_gt hrpos
  rw [hcalc]
  simp only [summaryOf_ok, scheduleOf_ok, computeCore_rated _ _ hrne, ratedCore]
  intro j row hrow
  have hjn : j < (y * 12).num.toNat := by
    have h2 := getElem?_lt_length hrow
    rwa [buildSchedule_length] at h2
  rw [buildSchedule_getElem _ _ _ _ j hjn] at hrow
  replace hrow := (Option.some.inj hrow).symm
  subst hrow
  rw [buildSchedule_prevBalance _ (ratedRow_balance_out _ _ _) _ _ j hjn]
  refine ⟨rfl, ?_, ?_⟩
  · intro hlt
    have hlt2 : j + 1 < (y * 12).num.toNat := by rwa [buildSchedule_length] at hlt
    have hne : ¬ (1 + j = (y * 12).num.toNat) := by omega
    simp only [ratedRow, if_neg hne]
    exact ⟨trivial, trivial, trivial⟩
  · intro hlast
    have hlast2 : j + 1 = (y * 12).num.toNat := by rwa [buildSchedule_length] at hlast
    have heq : 1 + j = (y * 12).num.toNat := by omega
    simp only [ratedRow, if_pos heq]
    exact ⟨trivial, trivial⟩

/-- C2 witness: the concrete interest-bearing input (2, 1, 2 months at
annual rate 12). -/
theorem rated_rows_witness :
    exceptOk (calculate_mortgage 2 1 (1 / 6) 12) = true ∧ (0 : ℚ) < 12 ∧
    (∀ j row, (scheduleOf (calculate_mortgage 2 1 (1 / 6) 12))[j]? = some row →
      row.interest =
        quantCent (prevBalance (2 - 1) (scheduleOf (calculate_mortgage 2 1 (1 / 6) 12)) j *
          ((12 : ℚ) / 100 / 12)) ∧
      (j + 1 < (scheduleOf (calculate_mortgage 2 1 (1 / 6) 12)).length →
        row.principal = quantCent
          ((summaryOf (calculate_mortgage 2 1 (1 / 6) 12)).monthly_payment_rub - row.interest) ∧
        row.payment = (summaryOf (calculate_mortgage 2 1 (1 / 6) 12)).monthly_payment_rub ∧
        row.balance =
          (if quantCent (prevBalance (2 - 1) (scheduleOf (calculate_mortgage 2 1 (1 / 6) 12)) j -
              row.principal) < 0 then 0
           else quantCent (prevBalance (2 - 1) (scheduleOf (calculate_mortgage 2 1 (1 / 6) 12)) j -
              row.principal))) ∧
      (j + 1 = (scheduleOf (calculate_mortgage 2 1 (1 / 6) 12)).length →
        row.principal = prevBalance (2 - 1) (scheduleOf (calculate_mortgage 2 1 (1 / 6) 12)) j ∧
        row.payment = quantCent (row.interest +
          prevBalance (2 - 1) (scheduleOf (calculate_mortgage 2 1 (1 / 6) 12)) j))) :=
  ⟨by decide, by norm_num, rated_rows 2 1 (1 / 6) 12 (by decide) (by norm_num)⟩

/-- C4: in the interest-bearing path the monthly payment is the annuity
formula `P * (r * (1+r)^n) / ((1+r)^n - 1)` (with `r = rate / 100 / 12` and
`n` the month count), computed exactly and rounded once to two decimals
half-up (the source's 28-significant-digit `Decimal` context is modelled as
exact arithmetic); for Scenario B (price 5,000,000, down payment 1,000,000,
15 years, rate 10) the payment equals the rounded closed form, 42984.20. -/
theorem annuity_payment_formula :
    (∀ hp dp y rate : ℚ, exceptOk (calculate_mortgage hp dp y rate) = true → 0 < rate →
      (summaryOf (calculate_mortgage hp dp y rate)).monthly_payment_rub =
        quantCent ((hp - dp) *
          ((rate / 100 / 12) *
            (1 + rate / 100 / 12) ^ ((scheduleOf (calculate_mortgage hp dp y rate)).length)) /
          ((1 + rate / 100 / 12) ^ ((scheduleOf (calculate_mortgage hp dp y rate)).length) - 1))) ∧
    (summaryOf (calculate_mortgage 5000000 1000000 15 10)).monthly_payment_rub =
      quantCent (4000000 * ((10 / 100 / 12) * (1 + 10 / 100 / 12) ^ 180) /
        ((1 + 10 / 100 / 12) ^ 180 - 1)) ∧
    (summaryOf (calculate_mortgage 5000000 1000000 15 10)).monthly_payment_rub = 214921 / 5 := by
  refine ⟨?_, by decide, by decide⟩
  intro hp dp y rate h hrpos
  obtain ⟨hcalc, hhp, hdp, hdphp, hy, hr, hden⟩ := exceptOk_elim h
  rw [hcalc]
  simp only [summaryOf_ok, scheduleOf_ok, computeCore_rated _ _ (ne_of_gt hrpos), ratedCore]
  rw [buildSchedule_length]

/-- C4 witness: Scenario B discharges the hypotheses of the universal part. -/
theorem annuity_payment_formula_witness :
    exceptOk (calculate_mortgage 5000000 1000000 15 10) = true ∧ (0 : ℚ) < 10 ∧
    (summaryOf (calculate_mortgage 5000000 1000000 15 10)).monthly_payment_rub =
      quantCent ((5000000 - 1000000) *
        ((10 / 100 / 12) *
          (1 + 10 / 100 / 12) ^ ((scheduleOf (calculate_mortgage 5000000 1000000 15 10)).length)) /
        ((1 + 10 / 100 / 12) ^ ((scheduleOf (calculate_mortgage 5000000 1000000 15 10)).length)
          - 1)) :=
  ⟨by decide, by norm_num,
    annuity_payment_formula.1 5000000 1000000 15 10 (by decide) (by norm_num)⟩

/-- C5: the summary's `total_paid` is the rounded
`monthly_payment * month_count`, `overpayment_amount` the rounded
`total_paid - principal`, and `overpayment_percent` the rounded
`overpayment_amount / principal * 100`; in particular these derive from the
nominal monthly payment, so `total_paid` can differ from the sum of the
schedule's `payment` column (as it does for principal 100 over 3 months:
99.99 versus 100.00). -/
theorem summary_formulas :
    (∀ hp dp y rate : ℚ, exceptOk (calculate_mortgage hp dp y rate) = true →
      (summaryOf (calculate_mortgage hp dp y rate)).total_paid_rub =
        quantCent ((summaryOf (calculate_mortgage hp dp y rate)).monthly_payment_rub *
          (((scheduleOf (calculate_mortgage hp dp y rate)).length : ℚ))) ∧
      (summaryOf (calculate_mortgage hp dp y rate)).overpayment_rub =
        quantCent ((summaryOf (calculate_mortgage hp dp y rate)).total_paid_rub - (hp - dp)) ∧
      (summaryOf (calculate_mortgage hp dp y rate)).overpayment_percent =
        quantCent ((summaryOf (calculate_mortgage hp dp y rate)).overpayment_rub /
          (hp - dp) * 100)) ∧
    (summaryOf (calculate_mortgage 200 100 (1 / 4) 0)).total_paid_rub ≠
      ((scheduleOf (calculate_mortgage 200 100 (1 / 4) 0)).map ScheduleRow.payment).sum := by
  refine ⟨?_, by decide⟩
  intro hp dp y rate h
  obtain ⟨hcalc, hhp, hdp, hdphp, hy, hr, hden⟩ := exceptOk_elim h
  rw [hcalc]
  simp only [summaryOf_ok, scheduleOf_ok]
  unfold computeCore
  split_ifs with hr0
  · simp only [zeroCore]
    rw [buildSchedule_length]
    refine ⟨?_, trivial, trivial⟩
    exact (quantCent_of_centMul ((quantCent_centMul _).natMul _)).symm
  · simp only [ratedCore]
    rw [buildSchedule_length]
    exact ⟨rfl, trivial, trivial⟩

/-- C5 witness: the zero-rate input (200, 100, 3 months). -/
theorem summary_formulas_witness :
    exceptOk (calculate_mortgage 200 100 (1 / 4) 0) = true ∧
    ((summaryOf (calculate_mortgage 200 100 (1 / 4) 0)).total_paid_rub =
      quantCent ((summaryOf (calculate_mortgage 200 100 (1 / 4) 0)).monthly_payment_rub *
        (((scheduleOf (calculate_mortgage 200 100 (1 / 4) 0)).length : ℚ))) ∧
    (summaryOf (calculate_mortgage 200 100 (1 / 4) 0)).overpayment_rub =
      quantCent ((summaryOf (calculate_mortgage 200 100 (1 / 4) 0)).total_paid_rub - (200 - 100)) ∧
    (summaryOf (calculate_mortgage 200 100 (1 / 4) 0)).overpayment_percent =
      quantCent ((summaryOf (calculate_mortgage 200 100 (1 / 4) 0)).overpayment_rub /
        (200 - 100) * 100)) :=
  ⟨by decide, summary_formulas.1 200 100 (1 / 4) 0 (by decide)⟩

/-- C9 counterexample: for the accepted input (price 2000.007, down payment
1000, 2 years, annual rate 2400) the principal is not a whole number of
cents and rounding makes the balance increase: row 1 holds 1000.01 (above
the principal 1000.007) and row 2 holds 1000.02. -/
theorem balance_increase_cex :
    exceptOk (calculate_mortgage (2000007 / 1000) 1000 2 2400) = true ∧
    ¬ nonIncreasingFrom ((2000007 : ℚ) / 1000 - 1000)
      ((scheduleOf (calculate_mortgage (2000007 / 1000) 1000 2 2400)).map
        ScheduleRow.balance) := by
  constructor
  · decide
  · decide

/-- C9 (amended): for every accepted input whose principal is an exact
multiple of 0.01, the balance column is non-increasing row to row, starting
from the principal, in both rate paths; for principals not aligned to whole
cents the rounding of the balance can make it increase (see the
counterexample). -/
theorem balance_nonincreasing (hp dp y rate : ℚ)
    (h : exceptOk (calculate_mortgage hp dp y rate) = true)
    (hcm : CentMul (hp - dp)) :
    nonIncreasingFrom (hp - dp)
      ((scheduleOf (calculate_mortgage hp dp y rate)).map ScheduleRow.balance) := by
  obtain ⟨hcalc, hhp, hdp, hdphp, hy, hr, hden⟩ := exceptOk_elim h
  obtain ⟨hn, hcast⟩ := monthCount_facts hy hden
  have hP : 0 < hp - dp := by linarith
  rw [hcalc]
  simp only [scheduleOf_ok]
  unfold computeCore
  split_ifs with hr0
  · -- zero-rate path
    simp only [zeroCore]
    set P := hp - dp with hPdef
    set n := (y * 12).num.toNat with hndef
    set monthly := quantCent (P / (n : ℚ)) with hmdef
    have hm0 : 0 ≤ monthly := quantCent_nonneg (by positivity)
    have hmc : CentMul monthly := quantCent_centMul _
    refine nonIncreasingFrom_buildSchedule _ (fun b => CentMul b ∧ 0 ≤ b) ?_ n P 1 ⟨hcm, hP.le⟩
    intro b i hb
    obtain ⟨hbc, hb0⟩ := hb
    by_cases hi : i = n
    · have hout : (zeroRow monthly n b i).2 = 0 := by
        subst hi; simp [zeroRow, sub_self, quantCent_zero]
      exact ⟨zeroRow_balance_out _ _ _ _, by rw [hout]; exact hb0,
        by rw [hout]; exact ⟨CentMul.zero, le_refl 0⟩⟩
    · have hb1 : quantCent (b - monthly) = b - monthly := quantCent_of_centMul (hbc.sub hmc)
      have hout : (zeroRow monthly n b i).2 =
          if b - monthly < 0 then 0 else b - monthly := by
        simp [zeroRow, hi, hb1]
      refine ⟨zeroRow_balance_out _ _ _ _, ?_, ?_⟩
      · rw [hout]; split_ifs <;> linarith
      · rw [hout]; split_ifs with hneg
        · exact ⟨CentMul.zero, le_refl 0⟩
        · exact ⟨hbc.sub hmc, by linarith⟩
  · -- interest-bearing path
    simp only [ratedCore]
    set P := hp - dp with hPdef
    set n := (y * 12).num.toNat with hndef
    set r := rate / 100 / 12 with hrdef
    have hrate : 0 < rate := lt_of_le_of_ne hr (Ne.symm hr0)
    have hr2 : 0 < r := by rw [hrdef]; positivity
    set q := (1 + r) ^ n with hqdef
    have hq1 : 1 < q := by
      rw [hqdef]
      exact one_lt_pow₀ (by linarith) (by omega)
    set mraw := P * (r * q) / (q - 1) with hmrawdef
    set monthly := quantCent mraw with hmdef
    have hPr_le : P * r ≤ mraw := by
      rw [hmrawdef, le_div_iff₀ (by linarith)]
      nlinarith [mul_pos hP hr2]
    have hint_le : ∀ b : ℚ, 0 ≤ b → b ≤ P → quantCent (b * r) ≤ monthly := by
      intro b hb0 hbP
      rw [hmdef]
      apply quantCent_mono
      calc b * r ≤ P * r := by nlinarith
        _ ≤ mraw := hPr_le
    refine nonIncreasingFrom_buildSchedule _
      (fun b => CentMul b ∧ 0 ≤ b ∧ b ≤ P) ?_ n P 1 ⟨hcm, hP.le, le_refl P⟩
    intro b i hb
    obtain ⟨hbc, hb0, hbP⟩ := hb
    by_cases hi : i = n
    · have hout : (ratedRow monthly r n b i).2 = 0 := by
        subst hi; simp [ratedRow, sub_self, quantCent_zero]
      exact ⟨ratedRow_balance_out _ _ _ _ _, by rw [hout]; exact hb0,
        by rw [hout]; exact ⟨CentMul.zero, le_refl 0, hP.le⟩⟩
    · have hint : quantCent (b * r) ≤ monthly := hint_le b hb0 hbP
      have hmc : CentMul monthly := quantCent_centMul _
      have hic : CentMul (quantCent (b * r)) := quantCent_centMul _
      have hpp_eq : quantCent (monthly - quantCent (b * r)) = monthly - quantCent (b * r) :=
        quantCent_of_centMul (hmc.sub hic)
      have hb1 : quantCent (b - (monthly - quantCent (b * r))) =
          b - (monthly - quantCent (b * r)) :=
        quantCent_of_centMul (hbc.sub (hmc.sub hic))
      have hout : (ratedRow monthly r n b i).2 =
          if b - (monthly - quantCent (b * r)) < 0 then 0
          else b - (monthly - quantCent (b * r)) := by
        simp [ratedRow, hi, hpp_eq, hb1]
      refine ⟨ratedRow_balance_out _ _ _ _ _, ?_, ?_⟩
      · rw [hout]; split_ifs <;> linarith
      · rw [hout]; split_ifs with hneg
        · exact ⟨CentMul.zero, le_refl 0, hP.le⟩
        · exact ⟨hbc.sub (hmc.sub hic), by linarith, by linarith⟩

/-- C9 witness: the accepted input (2, 1, 1 year, rate 0) has a whole-cent
principal and a non-increasing balance column. -/
theorem balance_nonincreasing_witness :
    exceptOk (calculate_mortgage 2 1 1 0) = true ∧ CentMul ((2 : ℚ) - 1) ∧
    nonIncreasingFrom ((2 : ℚ) - 1)
      ((scheduleOf (calculate_mortgage 2 1 1 0)).map ScheduleRow.balance) :=
  ⟨by decide, ⟨100, by norm_num⟩,
    balance_nonincreasing 2 1 1 0 (by decide) ⟨100, by norm_num⟩⟩

/-- C10 counterexample: for principal 1,000,000 over 120 months at rate 0,
`overpayment_amount` is `-0.40` but `overpayment_percent` rounds to exactly
`0.00` — it is not negative, contrary to the claim. -/
theorem overpayment_percent_not_negative_at_example :
    (summaryOf (calculate_mortgage 1200000 200000 10 0)).overpayment_rub = -2 / 5 ∧
    (summaryOf (calculate_mortgage 1200000 200000 10 0)).overpayment_percent = 0 := by
  decide

/-- C10 (amended): in the zero-rate path `total_paid` need not equal the
principal, so `overpayment_amount` can be nonzero and even strictly negative
(for principal 100 over 3 months both the amount and the percent are
`-0.01 < 0`); for principal 1,000,000 over 120 months the monthly payment is
8333.33, `total_paid` is 999,999.60 and `overpayment_amount` is `-0.40`,
while `overpayment_percent` rounds to `0.00` (not negative). -/
theorem zero_rate_overpayment_values :
    (summaryOf (calculate_mortgage 1200000 200000 10 0)).monthly_payment_rub = 833333 / 100 ∧
    (summaryOf (calculate_mortgage 1200000 200000 10 0)).total_paid_rub = 4999998 / 5 ∧
    (summaryOf (calculate_mortgage 1200000 200000 10 0)).overpayment_rub = -2 / 5 ∧
    (summaryOf (calculate_mortgage 1200000 200000 10 0)).overpayment_percent = 0 ∧
    (summaryOf (calculate_mortgage 200 100 (1 / 4) 0)).overpayment_rub = -1 / 100 ∧
    (summaryOf (calculate_mortgage 200 100 (1 / 4) 0)).overpayment_percent < 0 := by
  decide

end CredCalc
